import Mathlib

/-!
Verification of the event-cache subsystem of the IA_LLM_ML_Project repository.

The Lean definitions below are a shallow embedding of the Python sources:

* `src/toolsFolder/eventCache.py`   — `EventCache` (id generation, store,
  name lookup, LLM summary, per-source queries, clear);
* `src/toolsFolder/eventBrusselsTool.py` — `fetch_brussels_to_cache`;
* `src/toolsFolder/eventBriteTool.py`    — `CacheWithTTL`, `fetch_events_to_cache`;
* `src/newAgent.py`                 — `get_event_details_by_ids`.

Modelling conventions:
* Python dicts that hold event fields are modelled by a structure whose
  fields have type `Option (Option String)`: the outer `Option` is key
  presence (`none` = key absent), the inner one is Python `None`
  (`some none` = key present holding `None`).
* The insertion-ordered Python dict `self.events` is an association list;
  assignment to an existing key overwrites in place, a new key is appended.
* `hashlib.md5(...).hexdigest()` is implemented bit-for-bit below over
  `Nat` bytes (checked against the RFC 1321 test vectors).
* `str.lower` / `str.strip` are modelled for ASCII text (the repository's
  sources and the concrete inputs below are ASCII).
* `datetime.now().isoformat()` is passed in explicitly as a string argument,
  making the dependence of each operation on the clock visible.
-/

/-- A Python runtime value that is either a string or `None`. -/
abbrev PyVal := Option String

/-- A dict entry for a string key: absent, or present with a `PyVal`. -/
abbrev PyField := Option PyVal

/-- `d.get(k, default)` for a field of an event dict. -/
def dget (f : PyField) (d : PyVal) : PyVal := f.getD d

/-- `d.get(k)` (default `None`). -/
def dgetN (f : PyField) : PyVal := f.getD none

/-- Python truthiness of a string-or-None value (`None` and `""` are falsy). -/
def truthy : PyVal → Bool
  | none => false
  | some s => !(s == "")

/-- How an f-string renders a string-or-None value (`f"{None}"` is `"None"`). -/
def pyFmt : PyVal → String
  | none => "None"
  | some s => s

/-- Python `a or b` on two string-or-None values. -/
def pyOr (a b : PyVal) : PyVal := if truthy a then a else b

/-- Python `a or b` where `b` is a plain string. -/
def pyOrS (a : PyVal) (b : String) : String :=
  match a with
  | some s => if s == "" then b else s
  | none => b

/-- ASCII `str.lower`. -/
def pyLower (s : String) : String := ⟨s.data.map Char.toLower⟩

/-- Characters `str.strip()` removes (ASCII whitespace). -/
def pySpace (c : Char) : Bool :=
  c == ' ' || c == '\t' || c == '\n' || c == '\r' || c == '\x0b' || c == '\x0c'

/-- `str.strip()`. -/
def pyStrip (s : String) : String :=
  ⟨(s.data.dropWhile pySpace).reverse.dropWhile pySpace |>.reverse⟩

/-- Python slicing `s[:n]` (by code points). -/
def pyTake (n : Nat) (s : String) : String := ⟨s.data.take n⟩

/-- Python substring test `needle in haystack`. -/
def pyIn (needle haystack : String) : Bool :=
  haystack.data.tails.any (fun t => needle.data.isPrefixOf t)

/-! ### UTF-8 encoding (`str.encode()`), as lists of byte values -/

/-- UTF-8 encoding of one code point. -/
def utf8Char (c : Char) : List Nat :=
  let n := c.toNat
  if n < 0x80 then [n]
  else if n < 0x800 then [0xC0 ||| (n >>> 6), 0x80 ||| (n &&& 0x3F)]
  else if n < 0x10000 then
    [0xE0 ||| (n >>> 12), 0x80 ||| ((n >>> 6) &&& 0x3F), 0x80 ||| (n &&& 0x3F)]
  else
    [0xF0 ||| (n >>> 18), 0x80 ||| ((n >>> 12) &&& 0x3F),
     0x80 ||| ((n >>> 6) &&& 0x3F), 0x80 ||| (n &&& 0x3F)]

/-- `s.encode()`: UTF-8 bytes of a string. -/
def utf8Bytes (s : String) : List Nat := s.data.flatMap utf8Char

/-! ### MD5 (`hashlib.md5`), on `Nat` bytes with explicit `% 2^32` -/

namespace MD5

/-- The 64 sine-derived round constants of RFC 1321. -/
def K : List Nat :=
  [3614090360, 3905402710, 606105819, 3250441966, 4118548399, 1200080426,
   2821735955, 4249261313, 1770035416, 2336552879, 4294925233, 2304563134,
   1804603682, 4254626195, 2792965006, 1236535329, 4129170786, 3225465664,
   643717713, 3921069994, 3593408605, 38016083, 3634488961, 3889429448,
   568446438, 3275163606, 4107603335, 1163531501, 2850285829, 4243563512,
   1735328473, 2368359562, 4294588738, 2272392833, 1839030562, 4259657740,
   2763975236, 1272893353, 4139469664, 3200236656, 681279174, 3936430074,
   3572445317, 76029189, 3654602809, 3873151461, 530742520, 3299628645,
   4096336452, 1126891415, 2878612391, 4237533241, 1700485571, 2399980690,
   4293915773, 2240044497, 1873313359, 4264355552, 2734768916, 1309151649,
   4149444226, 3174756917, 718787259, 3951481745]

/-- The per-round left-rotation amounts. -/
def S : List Nat :=
  [7, 12, 17, 22, 7, 12, 17, 22, 7, 12, 17, 22, 7, 12, 17, 22,
   5, 9, 14, 20, 5, 9, 14, 20, 5, 9, 14, 20, 5, 9, 14, 20,
   4, 11, 16, 23, 4, 11, 16, 23, 4, 11, 16, 23, 4, 11, 16, 23,
   6, 10, 15, 21, 6, 10, 15, 21, 6, 10, 15, 21, 6, 10, 15, 21]

/-- 32-bit left rotation of a value `< 2^32`. -/
def rotl32 (x c : Nat) : Nat := ((x <<< c) ||| (x >>> (32 - c))) % 4294967296

/-- 32-bit complement. -/
def not32 (x : Nat) : Nat := 4294967295 ^^^ x

/-- Split a byte list into 64-byte blocks; structural recursion on a fuel
bound (the list length suffices, since each step consumes 64 > 0 bytes). -/
def chunksGo : Nat → List Nat → List (List Nat)
  | 0, _ => []
  | _, [] => []
  | fuel + 1, bs => bs.take 64 :: chunksGo fuel (bs.drop 64)

/-- Split the padded message into 64-byte blocks. -/
def chunks (bs : List Nat) : List (List Nat) := chunksGo bs.length bs

/-- Little-endian 32-bit word from four bytes of a block. -/
def word (block : List Nat) (i : Nat) : Nat :=
  block.getD (4 * i) 0 + block.getD (4 * i + 1) 0 * 256 +
    block.getD (4 * i + 2) 0 * 65536 + block.getD (4 * i + 3) 0 * 16777216

/-- One of the 64 rounds, acting on the state `(A, B, C, D)`. -/
def round (block : List Nat) (st : Nat × Nat × Nat × Nat) (i : Nat) :
    Nat × Nat × Nat × Nat :=
  let (a, b, c, d) := st
  let (f, g) :=
    if i < 16 then ((b &&& c) ||| (not32 b &&& d), i)
    else if i < 32 then ((d &&& b) ||| (not32 d &&& c), (5 * i + 1) % 16)
    else if i < 48 then (b ^^^ c ^^^ d, (3 * i + 5) % 16)
    else (c ^^^ (b ||| not32 d), (7 * i) % 16)
  let f := (f + a + K.getD i 0 + word block g) % 4294967296
  (d, (b + rotl32 f (S.getD i 0)) % 4294967296, b, c)

/-- Process one 64-byte block. -/
def processBlock (st : Nat × Nat × Nat × Nat) (block : List Nat) :
    Nat × Nat × Nat × Nat :=
  let (a0, b0, c0, d0) := st
  let (a, b, c, d) := (List.range 64).foldl (round block) (a0, b0, c0, d0)
  ((a0 + a) % 4294967296, (b0 + b) % 4294967296,
   (c0 + c) % 4294967296, (d0 + d) % 4294967296)

/-- Little-endian byte expansion of a 32-bit word. -/
def wordBytes (x : Nat) : List Nat :=
  [x % 256, x / 256 % 256, x / 65536 % 256, x / 16777216 % 256]

/-- Little-endian byte expansion of the 64-bit message bit length. -/
def lenBytes (l : Nat) : List Nat :=
  let n := (8 * l) % 18446744073709551616
  [n % 256, n / 256 % 256, n / 65536 % 256, n / 16777216 % 256,
   n / 4294967296 % 256, n / 1099511627776 % 256,
   n / 281474976710656 % 256, n / 72057594037927936 % 256]

/-- MD5 padding: `0x80`, zeros to 56 mod 64, then the bit length. -/
def pad (msg : List Nat) : List Nat :=
  msg ++ [0x80] ++ List.replicate ((55 + 64 - msg.length % 64) % 64) 0
    ++ lenBytes msg.length

/-- The 16-byte MD5 digest of a byte message. -/
def digest (msg : List Nat) : List Nat :=
  let (a, b, c, d) :=
    (chunks (pad msg)).foldl processBlock
      (0x67452301, 0xefcdab89, 0x98badcfe, 0x10325476)
  wordBytes a ++ wordBytes b ++ wordBytes c ++ wordBytes d

/-- Lower-case hex digit. -/
def hexChar (n : Nat) : Char := "0123456789abcdef".data.getD n 'x'

/-- Two hex digits of a byte. -/
def hexByte (b : Nat) : List Char := [hexChar (b / 16), hexChar (b % 16)]

/-- `hashlib.md5(bs).hexdigest()`. -/
def hexdigest (msg : List Nat) : String := ⟨(digest msg).flatMap hexByte⟩

end MD5

-- RFC 1321 test vectors, checking the embedding of `hashlib.md5` itself.
example : MD5.hexdigest [] = "d41d8cd98f00b204e9800998ecf8427e" := by decide
example : MD5.hexdigest (utf8Bytes "abc") = "900150983cd24fb0d6963f7d28e17f72" := by
  decide

/-! ### The event record and the cache store (`src/toolsFolder/eventCache.py`) -/

/-- One event dict.  Each field is a `PyField`: `none` means the key is
absent from the dict, `some none` means the key holds Python `None`.
The adapters populate their keys explicitly (possibly with `None`), and
`add_event` injects `_id`, `_source`, `_cached_at`. -/
structure Event where
  name : PyField := none
  date : PyField := none
  date_start : PyField := none
  date_end : PyField := none
  venue : PyField := none
  address : PyField := none
  price : PyField := none
  url : PyField := none
  description : PyField := none
  eid : PyField := none        -- the '_id' key
  esource : PyField := none    -- the '_source' key
  ecachedAt : PyField := none  -- the '_cached_at' key
  deriving Repr, DecidableEq

/-- The state of an `EventCache` instance.  `events` is the
insertion-ordered Python dict `event_id -> full event data`;
`last_refresh` and `ttl_seconds` are set in `__init__` (and, in the
repository, never consulted afterwards). -/
structure EventCache where
  events : List (String × Event) := []
  last_refresh : List (String × String) := []
  ttl_seconds : Nat := 36000
  deriving Repr, DecidableEq

/-- Assignment `d[k] = v` on an insertion-ordered dict: overwrite in place
if the key exists, otherwise append. -/
def dictSet {α : Type} (d : List (String × α)) (k : String) (v : α) :
    List (String × α) :=
  match d with
  | [] => [(k, v)]
  | (k', v') :: rest => if k' == k then (k, v) :: rest else (k', v') :: dictSet rest k v

/-- `del d[k]` on a dict (the key occurs at most once). -/
def dictDel {α : Type} (d : List (String × α)) (k : String) : List (String × α) :=
  d.filter (fun p => !(p.1 == k))

/-- `EventCache._generate_id`:
`hashlib.md5(f"{source}:{name}".lower().encode()).hexdigest()[:12]`. -/
def generate_id (name : String) (source : String) : String :=
  pyTake 12 (MD5.hexdigest (utf8Bytes (pyLower (source ++ ":" ++ name))))

/-- The record stored by `add_event`:
`{**event, '_id': event_id, '_source': source, '_cached_at': datetime.now().isoformat()}`.
Caller-supplied `_id` / `_source` / `_cached_at` entries are overridden. -/
def injectEvent (event : Event) (event_id source now : String) : Event :=
  { event with
    eid := some (some event_id)
    esource := some (some source)
    ecachedAt := some (some now) }

/-- `EventCache.add_event`.  The id is derived from `event.get('name', '')`
interpolated into an f-string (so a `None` name contributes `"None"`).
`now` is the `datetime.now().isoformat()` string.  Returns the updated
store and the returned event id. -/
def add_event (c : EventCache) (event : Event) (source now : String) :
    EventCache × String :=
  let event_id := generate_id (pyFmt (dget event.name (some ""))) source
  ({ c with events := dictSet c.events event_id (injectEvent event event_id source now) },
   event_id)

/-- `EventCache.get_event`: `self.events.get(event_id)`. -/
def get_event (c : EventCache) (event_id : String) : Option Event :=
  c.events.lookup event_id

/-- The exact-match test of `find_event_by_name`:
`event.get('name', '').lower().strip() == name_lower`.  When the stored
name is `None`, Python raises `AttributeError` on `.lower()`; the error
case is surfaced as `Except.error ()`. -/
def exactCheck (e : Event) (nameLower : String) : Except Unit Bool :=
  match dget e.name (some "") with
  | none => .error ()
  | some n => .ok (pyStrip (pyLower n) == nameLower)

/-- The fuzzy-match test of one candidate: substring containment in either
direction, else equality of the first 30 characters (`name_lower[:30] ==
event_name[:30]`).  The candidate name is lower-cased but not stripped. -/
def fuzzyCheck (e : Event) (nameLower : String) : Except Unit Bool :=
  match dget e.name (some "") with
  | none => .error ()
  | some n =>
    let eventName := pyLower n
    .ok (pyIn nameLower eventName || pyIn eventName nameLower ||
         pyTake 30 nameLower == pyTake 30 eventName)

/-- The first loop of `find_event_by_name` over `self.events.values()`. -/
def exactLoop (es : List Event) (nameLower : String) : Except Unit (Option Event) :=
  match es with
  | [] => .ok none
  | e :: rest =>
    match exactCheck e nameLower with
    | .error () => .error ()
    | .ok true => .ok (some e)
    | .ok false => exactLoop rest nameLower

/-- The second loop of `find_event_by_name` (fuzzy matching).  For each
candidate, containment is tested first and then the 30-character prefix;
both tests return the same candidate, so the loop returns the first
candidate passing either test. -/
def fuzzyLoop (es : List Event) (nameLower : String) : Except Unit (Option Event) :=
  match es with
  | [] => .ok none
  | e :: rest =>
    match fuzzyCheck e nameLower with
    | .error () => .error ()
    | .ok true => .ok (some e)
    | .ok false => fuzzyLoop rest nameLower

/-- `EventCache.find_event_by_name`. -/
def find_event_by_name (c : EventCache) (name : String) (fuzzy : Bool := true) :
    Except Unit (Option Event) :=
  let nameLower := pyStrip (pyLower name)
  match exactLoop (c.events.map Prod.snd) nameLower with
  | .error () => .error ()
  | .ok (some e) => .ok (some e)
  | .ok none =>
    if fuzzy then fuzzyLoop (c.events.map Prod.snd) nameLower
    else .ok none

/-- The `(name, date, desc)` components of one `get_llm_summary` line:
`name = event.get('name', 'Unknown')` (rendered by the f-string),
`date = event.get('date') or event.get('date_start', 'Date inconnue')`,
`desc = (event.get('description', '') or '')[:100]`. -/
def summaryTriple (e : Event) : String × String × String :=
  (pyFmt (dget e.name (some "Unknown")),
   pyFmt (pyOr (dgetN e.date) (dget e.date_start (some "Date inconnue"))),
   pyTake 100 (pyOrS (dget e.description (some "")) ""))

/-- One rendered line `f"[{event_id}] {name} | {date} | {desc}"`. -/
def summaryLine (event_id : String) (e : Event) : String :=
  let (name, date, desc) := summaryTriple e
  "[" ++ event_id ++ "] " ++ name ++ " | " ++ date ++ " | " ++ desc

/-- Python truthiness of the `source` parameter (`None` is falsy, and so
is an empty string). -/
def sourceTruthy : Option String → Bool
  | none => false
  | some s => !(s == "")

/-- The `continue` test of the `get_llm_summary` loop:
`if source and event.get('_source') != source`. -/
def summarySkip (source : Option String) (e : Event) : Bool :=
  sourceTruthy source && !(dgetN e.esource == source)

/-- The loop of `get_llm_summary`: skip filtered events, stop (`break`)
once `count >= limit`, otherwise emit the entry.  `remaining` is
`limit - count`. -/
def summaryEmitted (source : Option String) :
    List (String × Event) → Nat → List (String × Event)
  | [], _ => []
  | (k, e) :: rest, remaining =>
    if summarySkip source e then summaryEmitted source rest remaining
    else match remaining with
      | 0 => []
      | r + 1 => (k, e) :: summaryEmitted source rest r

/-- The list of lines emitted by `get_llm_summary`. -/
def summaryLines (c : EventCache) (source : Option String) (limit : Nat) :
    List String :=
  (summaryEmitted source c.events limit).map (fun p => summaryLine p.1 p.2)

/-- `EventCache.get_llm_summary`: `"\n".join(lines)`. -/
def get_llm_summary (c : EventCache) (source : Option String := none)
    (limit : Nat := 50) : String :=
  String.intercalate "\n" (summaryLines c source limit)

/-- `EventCache.get_events_by_source`:
`[e for e in self.events.values() if e.get('_source') == source]`. -/
def get_events_by_source (c : EventCache) (source : String) : List Event :=
  (c.events.map Prod.snd).filter (fun e => dgetN e.esource == some source)

/-- `EventCache.clear`. -/
def clear (c : EventCache) (source : Option String := none) : EventCache :=
  match source with
  | some s =>
    if s == "" then { c with events := [] }  -- falsy source clears everything
    else { c with events := c.events.filter (fun p => !(dgetN p.2.esource == some s)) }
  | none => { c with events := [] }

/-! ### The Brussels adapter (`src/toolsFolder/eventBrusselsTool.py`) -/

/-- Single-character `str.replace(c, rep)`. -/
def charReplace (c : Char) (rep : String) (s : String) : String :=
  ⟨s.data.flatMap (fun x => if x == c then rep.data else [x])⟩

/-- Python `s.split(c)` for a one-character separator. -/
def pySplitChar (c : Char) : List Char → List (List Char)
  | [] => [[]]
  | x :: rest =>
    let r := pySplitChar c rest
    if x == c then [] :: r
    else
      match r with
      | [] => [[x]]
      | seg :: segs => (x :: seg) :: segs

/-- The `fr` translation dict of a Brussels API record. -/
structure FrTranslation where
  name : PyField := none
  longdescr : PyField := none
  shortdescr : PyField := none
  agenda_url : PyField := none
  website : PyField := none
  deriving Repr, DecidableEq

/-- The `place.translations.fr` dict of a Brussels API record. -/
structure FrPlace where
  name : PyField := none
  address_line1 : PyField := none
  address_zip : PyField := none
  address_city : PyField := none
  website : PyField := none
  deriving Repr, DecidableEq

/-- One record of the Brussels API response.  `translations_fr` is `none`
when `'fr' not in event['translations']` (the record is then skipped). -/
structure BrusselsRaw where
  translations_fr : Option FrTranslation := none
  place_fr : FrPlace := {}
  date_start : PyField := none
  date_end : PyField := none
  is_free : Bool := false  -- truthiness of event.get('is_free')
  deriving Repr, DecidableEq

/-- The `full_event` dict built by `fetch_brussels_to_cache` for a record
whose `fr` translation is present. -/
def brusselsFullEvent (r : BrusselsRaw) (fr : FrTranslation) : Event :=
  let p := r.place_fr
  { name := some (dgetN fr.name)
    date := some (dgetN r.date_start)
    date_start := some (dgetN r.date_start)
    date_end := some (dgetN r.date_end)
    venue := some (dgetN p.name)
    address := some (some (pyFmt (dgetN p.address_line1) ++ ", " ++
      pyFmt (dgetN p.address_zip) ++ " " ++ pyFmt (dgetN p.address_city)))
    price := some (some (if r.is_free then "Gratuit" else "Payant"))
    description := some (some (pyTake 300 (charReplace '\n' " "
      (pyOrS (pyOr (dgetN fr.longdescr) (dgetN fr.shortdescr)) ""))))
    url := some (pyOr (pyOr (dgetN fr.agenda_url) (dgetN fr.website)) (dgetN p.website)) }

/-- The ingestion loop of `fetch_brussels_to_cache`: records without an
`fr` translation are skipped, the others are inserted via `add_event`
(and the returned id is written back into the local dict that is
appended to `cached_events`). -/
def brusselsIngest (c : EventCache) (rs : List BrusselsRaw) (now : String) :
    EventCache × List Event :=
  match rs with
  | [] => (c, [])
  | r :: rest =>
    match r.translations_fr with
    | none => brusselsIngest c rest now
    | some fr =>
      let fe := brusselsFullEvent r fr
      let a := add_event c fe "brussels" now
      let tail := brusselsIngest a.1 rest now
      (tail.1, { fe with eid := some (some a.2) } :: tail.2)

/-- `fetch_brussels_to_cache`.  `resp` is the parsed API response
(`none` models the `except` path: HTTP or JSON failure, which returns
`[]` without touching the store).  The final `Bool` records whether an
upstream HTTP request was performed — the function body issues
`requests.get` unconditionally, so it is always `true`. -/
def fetch_brussels_to_cache (c : EventCache) (resp : Option (List BrusselsRaw))
    (now : String) : EventCache × List Event × Bool :=
  match resp with
  | none => (c, [], true)
  | some rs =>
    ((brusselsIngest c rs now).1, (brusselsIngest c rs now).2, true)

/-- One line of `get_brussels_events_for_llm`. -/
def brusselsLine (e : Event) : String :=
  "[" ++ pyFmt (dget e.eid (some "N/A")) ++ "] " ++
    pyTake 80 (pyOrS (dgetN e.name) "Unknown") ++ " | " ++
    pyTake 16 (pyOrS (dgetN e.date_start) "Date inconnue") ++ " | " ++
    pyTake 80 (pyOrS (dgetN e.description) "")

/-- `get_brussels_events_for_llm`: fetch, then render the first 15 events
in the minimal format (or a fixed message when the list is empty). -/
def get_brussels_events_for_llm (c : EventCache) (resp : Option (List BrusselsRaw))
    (now : String) : EventCache × String :=
  let (c', events, _) := fetch_brussels_to_cache c resp now
  if events.isEmpty then (c', "Aucun événement Brussels disponible.")
  else (c', "--- BRUSSELS API ---\n" ++
    String.intercalate "\n" ((events.take 15).map brusselsLine))

/-! ### The EventBrite TTL cache (`src/toolsFolder/eventBriteTool.py`) -/

/-- One normalized EventBrite event (built by the API loop of
`fetch_events_to_cache`; its shape is irrelevant to the cache policy). -/
structure EBEvent where
  name : String := ""
  date : String := ""
  url : String := ""
  description : String := ""
  full_text : String := ""
  deriving Repr, DecidableEq

/-- The state of `CacheWithTTL`: a value dict and an expiry dict.
Expiry instants are seconds (`datetime` arithmetic uses
`timedelta(seconds=ttl)`). -/
structure CacheWithTTL where
  cache : List (String × List EBEvent) := []
  expiry : List (String × Nat) := []
  deriving Repr, DecidableEq

/-- `CacheWithTTL.get` at clock value `now`: a hit requires
`datetime.now() < self.expiry.get(key, datetime.now())`; an expired entry
is deleted from both dicts. -/
def ttlGet (c : CacheWithTTL) (key : String) (now : Nat) :
    Option (List EBEvent) × CacheWithTTL :=
  match c.cache.lookup key with
  | some v =>
    if now < ((c.expiry.lookup key).getD now) then (some v, c)
    else (none, { cache := dictDel c.cache key, expiry := dictDel c.expiry key })
  | none => (none, c)

/-- `CacheWithTTL.set`: store the value and stamp its expiry
`now + ttl_seconds`. -/
def ttlSet (c : CacheWithTTL) (key : String) (v : List EBEvent)
    (ttl_seconds now : Nat) : CacheWithTTL :=
  { cache := dictSet c.cache key v, expiry := dictSet c.expiry key (now + ttl_seconds) }

/-- `fetch_events_to_cache`.  `upstream` is the event list the venue-by-venue
API loop would build (the HTTP traffic itself is outside the embedding).
Returns the event list, the new cache state, and whether the upstream API
was hit.  A cached empty list is falsy (`if cached_data:`), so it does
not count as a hit. -/
def fetch_events_to_cache (c : CacheWithTTL) (now : Nat) (upstream : List EBEvent)
    (force_refresh : Bool := false) (cache_ttl : Nat := 36000) :
    List EBEvent × CacheWithTTL × Bool :=
  let cacheKey := "eventbrite:events:all"
  let refetch := fun (c : CacheWithTTL) =>
    (upstream, ttlSet c cacheKey upstream cache_ttl now, true)
  if force_refresh then refetch c
  else
    match ttlGet c cacheKey now with
    | (some v, c') => if v.isEmpty then refetch c' else (v, c', false)
    | (none, c') => refetch c'

/-! ### The full-view resolver (`get_event_details_by_ids`, `src/newAgent.py`) -/

/-- `[eid.strip() for eid in event_ids.split(',') if eid.strip()]`. -/
def parseIds (event_ids : String) : List String :=
  ((pySplitChar ',' event_ids.data).map (fun cs => pyStrip ⟨cs⟩)).filter
    (fun t => !(t == ""))

/-- The slot rendered for one id (1-indexed by `idx`).  An id present in
the store yields the pre-formatted block; an absent id yields the
"not found" placeholder.  The Python assigns a `source` variable
(`event.get('_source', 'unknown').upper()`) that is never used in the
output; it is omitted here. -/
def detailSlot (c : EventCache) (idx : Nat) (event_id : String) : String :=
  match get_event c event_id with
  | some e =>
    let name := pyFmt (dget e.name (some "Unknown"))
    let d0 := pyOr (pyOr (dgetN e.date) (dgetN e.date_start)) (some "Date inconnue")
    let ds := pyFmt d0
    let date :=
      if truthy d0 && pyIn "T" ds then
        let s1 := charReplace 'T' " à " ds
        let s2 : String := ⟨(pySplitChar '+' s1.data).headD []⟩
        (⟨(pySplitChar '.' s2.data).headD []⟩ : String)
      else ds
    let venue := pyOrS (dgetN e.venue) "Lieu non précisé"
    let address := pyOrS (dgetN e.address) ""
    let location :=
      if !(address == "") && !(pyStrip address == "") then venue ++ " - " ++ address
      else venue
    let price0 := pyOrS (dgetN e.price) "Prix non précisé"
    let price := if price0 == "" || pyStrip price0 == "" then "Prix non précisé" else price0
    let desc0 := pyOrS (dgetN e.description) "Pas de description disponible"
    let desc1 := pyStrip (charReplace '\r' " " (charReplace '\n' " " desc0))
    let description := if desc1.length > 300 then pyTake 300 desc1 ++ "..." else desc1
    let url0 := pyOrS (dgetN e.url) ""
    let url1 :=
      if !(url0 == "") && !("http".data.isPrefixOf url0.data) then "https://" ++ url0
      else url0
    let url := if url1 == "" || pyStrip url1 == "" then "Lien non disponible" else url1
    toString idx ++ ". **" ++ name ++ "**\n📅 " ++ date ++ "\n📍 " ++ location ++
      "\n💰 " ++ price ++ "\n🔗 " ++ url ++ "\nDescription: " ++ description
  | none => toString idx ++ ". **Événement non trouvé** (ID: " ++ event_id ++ ")"

/-- The `results` list of `get_event_details_by_ids`
(`for idx, event_id in enumerate(ids, 1)`). -/
def detailSlots (c : EventCache) (ids : List String) : List String :=
  ids.enum.map (fun p => detailSlot c (p.1 + 1) p.2)

/-- `get_event_details_by_ids`: parse the comma-separated ids, render one
slot per id, join with blank lines (or the fixed empty-result message),
and append the fixed instruction footer. -/
def get_event_details_by_ids (c : EventCache) (event_ids : String) : String :=
  let ids := parseIds event_ids
  let results := detailSlots c ids
  let output :=
    if results.isEmpty then "Aucun événement trouvé."
    else String.intercalate "\n\n" results
  output ++ "\n\n✅ Voici les détails complets. Retourne ces événements EXACTEMENT comme formatés ci-dessus (avec les emojis 📅📍💰🔗 et Description:). Ne modifie pas les URLs ni les informations."

/-! ### General lemmas about the embedding's building blocks -/

theorem pyLower_append (a b : String) : pyLower (a ++ b) = pyLower a ++ pyLower b := by
  apply String.ext
  simp [pyLower, String.data_append]

theorem length_pyTake_le (n : Nat) (s : String) : (pyTake n s).length ≤ n := by
  simp [pyTake, String.length_mk]

theorem length_flatMap_hexByte (bs : List Nat) :
    (bs.flatMap MD5.hexByte).length = 2 * bs.length := by
  induction bs with
  | nil => rfl
  | cons b rest ih =>
    simp [List.flatMap_cons, MD5.hexByte, ih]
    omega

theorem length_wordBytes (x : Nat) : (MD5.wordBytes x).length = 4 := rfl

theorem length_digest (msg : List Nat) : (MD5.digest msg).length = 16 := by
  simp [MD5.digest, MD5.wordBytes]

theorem length_hexdigest (msg : List Nat) : (MD5.hexdigest msg).length = 32 := by
  have h := length_flatMap_hexByte (MD5.digest msg)
  simp only [MD5.hexdigest, String.length_mk]
  rw [h, length_digest]

theorem mem_digest_lt (msg : List Nat) : ∀ b ∈ MD5.digest msg, b < 256 := by
  intro b hb
  simp [MD5.digest, MD5.wordBytes] at hb
  rcases hb with h|h|h|h|h|h|h|h|h|h|h|h|h|h|h|h <;>
    (subst h; exact Nat.mod_lt _ (by omega))

theorem hexChar_mem (n : Nat) (h : n < 16) :
    MD5.hexChar n ∈ "0123456789abcdef".data := by
  interval_cases n <;> decide

theorem mem_hexdigest_hex (msg : List Nat) :
    ∀ c ∈ (MD5.hexdigest msg).data, c ∈ "0123456789abcdef".data := by
  intro c hc
  simp only [MD5.hexdigest] at hc
  rw [List.mem_flatMap] at hc
  obtain ⟨b, hb, hcb⟩ := hc
  have hb256 : b < 256 := mem_digest_lt msg b hb
  simp [MD5.hexByte] at hcb
  rcases hcb with h | h
  · rw [h]
    exact hexChar_mem _ (Nat.div_lt_of_lt_mul (by omega))
  · rw [h]
    exact hexChar_mem _ (Nat.mod_lt _ (by omega))

/-! ### Lemmas about the insertion-ordered dict -/

theorem lookup_dictSet_self {α : Type} (d : List (String × α)) (k : String) (v : α) :
    (dictSet d k v).lookup k = some v := by
  induction d with
  | nil => simp [dictSet, List.lookup]
  | cons p rest ih =>
    obtain ⟨k', v'⟩ := p
    by_cases h : k' = k
    · subst h
      simp [dictSet, List.lookup]
    · have h1 : (k' == k) = false := beq_eq_false_iff_ne.mpr h
      have h2 : (k == k') = false := beq_eq_false_iff_ne.mpr (Ne.symm h)
      simp [dictSet, h1, List.lookup, h2, ih]

theorem mapfst_dictSet {α : Type} (d : List (String × α)) (k : String) (v : α) :
    (dictSet d k v).map Prod.fst =
      if k ∈ d.map Prod.fst then d.map Prod.fst else d.map Prod.fst ++ [k] := by
  induction d with
  | nil => simp [dictSet]
  | cons p rest ih =>
    obtain ⟨k', v'⟩ := p
    by_cases h : k' = k
    · subst h
      simp [dictSet]
    · have h1 : (k' == k) = false := beq_eq_false_iff_ne.mpr h
      by_cases hm : k ∈ rest.map Prod.fst
      · simp [dictSet, h1, ih, hm, Ne.symm h]
      · simp [dictSet, h1, ih, hm, Ne.symm h]

theorem length_dictSet_mem {α : Type} (d : List (String × α)) (k : String) (v : α)
    (h : k ∈ d.map Prod.fst) : (dictSet d k v).length = d.length := by
  have := mapfst_dictSet d k v
  rw [if_pos h] at this
  have hl : ((dictSet d k v).map Prod.fst).length = (d.map Prod.fst).length := by
    rw [this]
  simpa using hl

theorem mem_keys_dictSet_self {α : Type} (d : List (String × α)) (k : String) (v : α) :
    k ∈ (dictSet d k v).map Prod.fst := by
  rw [mapfst_dictSet]
  split
  · assumption
  · simp

theorem nodup_keys_dictSet {α : Type} (d : List (String × α)) (k : String) (v : α)
    (h : (d.map Prod.fst).Nodup) : ((dictSet d k v).map Prod.fst).Nodup := by
  rw [mapfst_dictSet]
  split
  · exact h
  · next hk =>
      rw [List.nodup_append]
      refine ⟨h, List.nodup_singleton _, ?_⟩
      intro a ha hb
      rw [List.mem_singleton] at hb
      exact hk (hb ▸ ha)

theorem mem_dictSet {α : Type} (d : List (String × α)) (k : String) (v : α)
    (p : String × α) (h : p ∈ dictSet d k v) : p = (k, v) ∨ p ∈ d := by
  induction d with
  | nil => simpa [dictSet] using h
  | cons q rest ih =>
    obtain ⟨k', v'⟩ := q
    by_cases hk : k' == k
    · simp [dictSet, hk] at h
      rcases h with h | h
      · exact Or.inl (by simp [h])
      · exact Or.inr (by simp [h])
    · simp [dictSet, hk] at h
      rcases h with h | h
      · exact Or.inr (by simp [h])
      · rcases ih h with h' | h'
        · exact Or.inl h'
        · exact Or.inr (by simp [h'])

theorem count_key_of_nodup {α : Type} (d : List (String × α)) (k : String)
    (hnd : (d.map Prod.fst).Nodup) (hm : k ∈ d.map Prod.fst) :
    (d.filter (fun p => p.1 == k)).length = 1 := by
  induction d with
  | nil => simp at hm
  | cons p rest ih =>
    obtain ⟨k', v'⟩ := p
    simp only [List.map_cons, List.nodup_cons] at hnd
    by_cases h : k' = k
    · subst h
      have hnm : ¬ k' ∈ rest.map Prod.fst := hnd.1
      have hz : (rest.filter (fun p => p.1 == k')).length = 0 := by
        rw [List.length_eq_zero, List.filter_eq_nil_iff]
        intro a ha
        simp only [beq_iff_eq]
        intro hak
        exact hnm (hak ▸ List.mem_map_of_mem Prod.fst ha)
      simp [List.filter_cons, hz]
    · have h1 : (k' == k) = false := beq_eq_false_iff_ne.mpr h
      have hm2 : k ∈ k' :: rest.map Prod.fst := by
        simpa only [List.map_cons] using hm
      have hm' : k ∈ rest.map Prod.fst := by
        rcases List.mem_cons.mp hm2 with h' | h'
        · exact absurd h'.symm h
        · exact h'
      simp [List.filter_cons, h1, ih hnd.2 hm']

/-! ### Claim C1 — id determinism, dependence, and shape -/

/-- C1: computing the event id for a `(source, name)` pair is deterministic
and depends only on the source and the case-folded name: names equal after
case-folding give the same id, the id of `add_event` is unaffected by the
store state, the insertion time, and every event field other than `name`,
and the id is a 12-character lowercase-hex digest prefix. -/
theorem generateId_pure_hex_prefix
    (n m s : String) (c₁ c₂ : EventCache) (e₁ e₂ : Event) (t₁ t₂ : String)
    (hname : pyLower n = pyLower m) (hfields : e₁.name = e₂.name) :
    generate_id n s = generate_id m s ∧
    (generate_id n s).length = 12 ∧
    (∀ ch ∈ (generate_id n s).data, ch ∈ "0123456789abcdef".data) ∧
    (add_event c₁ e₁ s t₁).2 = (add_event c₂ e₂ s t₂).2 := by
  have hkey : pyLower (s ++ ":" ++ n) = pyLower (s ++ ":" ++ m) := by
    rw [pyLower_append (s ++ ":") n, pyLower_append (s ++ ":") m, hname]
  refine ⟨?_, ?_, ?_, ?_⟩
  · simp only [generate_id, hkey]
  · have h32 : (MD5.hexdigest (utf8Bytes (pyLower (s ++ ":" ++ n)))).data.length = 32 :=
      length_hexdigest _
    simp [generate_id, pyTake, String.length_mk, List.length_take, h32]
  · intro ch hch
    simp only [generate_id, pyTake] at hch
    exact mem_hexdigest_hex _ ch (List.mem_of_mem_take hch)
  · show generate_id (pyFmt (dget e₁.name (some ""))) s =
      generate_id (pyFmt (dget e₂.name (some ""))) s
    rw [hfields]

/-- Witness for C1 at the concrete pair `("ticketing", "Concert A")`:
the two events of the last conjunct differ in description, store state,
and insertion time, yet receive the same id. -/
theorem generateId_pure_hex_prefix_witness :
    generate_id "Concert A" "ticketing" = generate_id "concert a" "ticketing" ∧
    (generate_id "Concert A" "ticketing").length = 12 ∧
    (∀ ch ∈ (generate_id "Concert A" "ticketing").data, ch ∈ "0123456789abcdef".data) ∧
    (add_event {} { name := some (some "Concert A") } "ticketing"
        "2025-01-01T00:00:00").2 =
      (add_event { events := [("x", {})] }
        { name := some (some "Concert A"), description := some (some "updated") }
        "ticketing" "2026-06-06T12:00:00").2 :=
  generateId_pure_hex_prefix "Concert A" "concert a" "ticketing"
    {} { events := [("x", {})] }
    { name := some (some "Concert A") }
    { name := some (some "Concert A"), description := some (some "updated") }
    "2025-01-01T00:00:00" "2026-06-06T12:00:00" (by decide) rfl

/-! ### Claim C2 — idempotent insert, last-write-wins -/

/-- C2: adding two events with the same name under the same source (the
second may differ in any other field) stores exactly one record under the
shared id; its fields are those of the second call, and the store size
does not grow on the second call. -/
theorem addEvent_last_write_wins
    (c : EventCache) (e₁ e₂ : Event) (src t₁ t₂ : String)
    (hnd : (c.events.map Prod.fst).Nodup) (hname : e₁.name = e₂.name) :
    (add_event (add_event c e₁ src t₁).1 e₂ src t₂).2 = (add_event c e₁ src t₁).2 ∧
    (add_event (add_event c e₁ src t₁).1 e₂ src t₂).1.events.lookup
        (add_event c e₁ src t₁).2
      = some (injectEvent e₂ (add_event c e₁ src t₁).2 src t₂) ∧
    (add_event (add_event c e₁ src t₁).1 e₂ src t₂).1.events.length
      = (add_event c e₁ src t₁).1.events.length ∧
    ((add_event (add_event c e₁ src t₁).1 e₂ src t₂).1.events.filter
        (fun p => p.1 == (add_event c e₁ src t₁).2)).length = 1 := by
  have hgen : generate_id (pyFmt (dget e₂.name (some ""))) src
      = generate_id (pyFmt (dget e₁.name (some ""))) src := by rw [hname]
  simp only [add_event, hgen]
  exact ⟨trivial, lookup_dictSet_self _ _ _,
    length_dictSet_mem _ _ _ (mem_keys_dictSet_self _ _ _),
    count_key_of_nodup _ _
      (nodup_keys_dictSet _ _ _ (nodup_keys_dictSet _ _ _ hnd))
      (mem_keys_dictSet_self _ _ _)⟩

/-- The "Concert A" record, first version. -/
def concertV1 : Event := { name := some (some "Concert A"), description := some (some "v1") }

/-- The "Concert A" record with an updated description. -/
def concertV2 : Event := { name := some (some "Concert A"), description := some (some "v2") }

/-- Witness for C2: inserting `"Concert A"` twice under `"ticketing"`, the
second time with an updated description, leaves one record carrying the
updated description. -/
theorem addEvent_last_write_wins_witness :
    (add_event (add_event {} concertV1 "ticketing" "t1").1 concertV2 "ticketing" "t2").2
      = (add_event {} concertV1 "ticketing" "t1").2 ∧
    (add_event (add_event {} concertV1 "ticketing" "t1").1 concertV2
        "ticketing" "t2").1.events.lookup (add_event {} concertV1 "ticketing" "t1").2
      = some (injectEvent concertV2
          (add_event {} concertV1 "ticketing" "t1").2 "ticketing" "t2") ∧
    (add_event (add_event {} concertV1 "ticketing" "t1").1 concertV2
        "ticketing" "t2").1.events.length
      = (add_event {} concertV1 "ticketing" "t1").1.events.length ∧
    ((add_event (add_event {} concertV1 "ticketing" "t1").1 concertV2
        "ticketing" "t2").1.events.filter
        (fun p => p.1 == (add_event {} concertV1 "ticketing" "t1").2)).length = 1 :=
  addEvent_last_write_wins {} concertV1 concertV2 "ticketing" "t1" "t2"
    List.nodup_nil rfl

/-! ### Claim C3 — same name under two sources coexists -/

/-- The store after inserting `"Concert A"` under source `"ticketing"`. -/
def cacheCA1 : EventCache × String :=
  add_event {} { name := some (some "Concert A") } "ticketing" "t1"

/-- The previous store after also inserting `"Concert A"` under source
`"municipal"`. -/
def cacheCA2 : EventCache × String :=
  add_event cacheCA1.1 { name := some (some "Concert A") } "municipal" "t2"

/-- C3: the two `"Concert A"` events inserted under sources `"ticketing"`
and `"municipal"` receive different ids (matching `hashlib.md5` digests of
`"ticketing:concert a"` and `"municipal:concert a"`), and both records
coexist in the store. -/
theorem concertA_two_sources_distinct_ids :
    cacheCA1.2 = "d219324f9c3f" ∧
    cacheCA2.2 = "aa7e2a1371e5" ∧
    cacheCA1.2 ≠ cacheCA2.2 ∧
    cacheCA2.1.events.length = 2 ∧
    (get_event cacheCA2.1 cacheCA1.2).isSome ∧
    (get_event cacheCA2.1 cacheCA2.2).isSome := by
  decide

/-! ### Lemmas about the two loops of `find_event_by_name` -/

deriving instance DecidableEq for Except

/-- `exactCheck` returned `.ok true` for the candidate. -/
def exactHit (e : Event) (nq : String) : Bool :=
  match exactCheck e nq with
  | .ok true => true
  | _ => false

/-- `fuzzyCheck` returned `.ok true` for the candidate. -/
def fuzzyHit (e : Event) (nq : String) : Bool :=
  match fuzzyCheck e nq with
  | .ok true => true
  | _ => false

/-- The containment half of the fuzzy test, alone. -/
def containHit (e : Event) (nq : String) : Bool :=
  match dget e.name (some "") with
  | none => false
  | some n => pyIn nq (pyLower n) || pyIn (pyLower n) nq

theorem exactLoop_finds (es : List Event) (nq : String)
    (hnames : ∀ e ∈ es, dget e.name (some "") ≠ none)
    (hex : ∃ e ∈ es, exactCheck e nq = .ok true) :
    ∃ r, exactLoop es nq = .ok (some r) ∧ exactCheck r nq = .ok true := by
  induction es with
  | nil => simp at hex
  | cons e rest ih =>
    rcases hme : dget e.name (some "") with _ | n
    · exact absurd hme (hnames e (by simp))
    · by_cases hb : (pyStrip (pyLower n) == nq) = true
      · exact ⟨e, by simp [exactLoop, exactCheck, hme, hb], by simp [exactCheck, hme, hb]⟩
      · have hb' : (pyStrip (pyLower n) == nq) = false := by
          simpa using hb
        have hex' : ∃ x ∈ rest, exactCheck x nq = .ok true := by
          rcases hex with ⟨x, hx, hxc⟩
          rcases List.mem_cons.mp hx with h' | h'
          · subst h'
            rw [exactCheck, hme] at hxc
            simp [hb'] at hxc
          · exact ⟨x, h', hxc⟩
        obtain ⟨r, hr1, hr2⟩ := ih (fun x hx => hnames x (by simp [hx])) hex'
        exact ⟨r, by simp [exactLoop, exactCheck, hme, hb', hr1], hr2⟩

theorem exactLoop_none (es : List Event) (nq : String)
    (h : ∀ e ∈ es, exactCheck e nq = .ok false) :
    exactLoop es nq = .ok none := by
  induction es with
  | nil => rfl
  | cons e rest ih =>
    have he := h e (by simp)
    simp [exactLoop, he, ih (fun x hx => h x (by simp [hx]))]

theorem fuzzyLoop_first_hit (es : List Event) (nq : String)
    (hnames : ∀ e ∈ es, dget e.name (some "") ≠ none) :
    fuzzyLoop es nq = .ok (es.find? (fun e => fuzzyHit e nq)) := by
  induction es with
  | nil => rfl
  | cons e rest ih =>
    rcases hme : dget e.name (some "") with _ | n
    · exact absurd hme (hnames e (by simp))
    · have ih' := ih (fun x hx => hnames x (by simp [hx]))
      by_cases hb : fuzzyHit e nq = true
      · have hc : fuzzyCheck e nq = .ok true := by
          rw [fuzzyHit] at hb
          rcases hcc : fuzzyCheck e nq with _ | b
          · rw [hcc] at hb
            simp at hb
          · rw [hcc] at hb
            cases b
            · simp at hb
            · rfl
        rw [List.find?_cons_of_pos rest hb]
        simp [fuzzyLoop, hc]
      · have hb' : fuzzyHit e nq = false := by simpa using hb
        have hc : fuzzyCheck e nq = .ok false := by
          rw [fuzzyHit] at hb'
          rcases hcc : fuzzyCheck e nq with u | b
          · exfalso
            rw [fuzzyCheck, hme] at hcc
            simp at hcc
          · rw [hcc] at hb'
            cases b
            · rfl
            · simp at hb'
        rw [List.find?_cons_of_neg rest (by simp [hb'])]
        simp [fuzzyLoop, hc, ih']

/-! ### Claim C4 — exact-match precedence -/

/-- An event whose `name` key holds Python `None` (as the Brussels adapter
produces when the French translation lacks a name). -/
def evNoneName : Event := { name := some none }

/-- An event with a proper string name. -/
def evTarget : Event := { name := some (some "Target Event") }

/-- A store holding a `None`-named record before an exactly-matching one. -/
def cacheC4 : EventCache := { events := [("k1", evNoneName), ("k2", evTarget)] }

/-- Counterexample to C4 as stated: in `cacheC4` a stored record matches
the query exactly (case-folded, trimmed), yet `find_event_by_name` does
not return it — scanning the earlier record whose `name` is `None`
raises `AttributeError` (`None.lower()`), so the call fails instead. -/
theorem findByName_crashes_on_none_name :
    ((cacheC4.events.map Prod.snd).any
      (fun e => exactHit e (pyStrip (pyLower "  TARGET EVENT ")))) = true ∧
    find_event_by_name cacheC4 "  TARGET EVENT " true = Except.error () := by
  decide

/-- C4 (amended): over stores whose records all carry string names, if some
stored record's name equals the query under case-folding and trimming,
`find_event_by_name` returns an exactly-matching record (for any `fuzzy`
flag), even when other records would match fuzzily. -/
theorem findByName_exact_precedence
    (c : EventCache) (q : String) (fz : Bool)
    (hnames : ∀ e ∈ c.events.map Prod.snd, dget e.name (some "") ≠ none)
    (hex : ∃ e ∈ c.events.map Prod.snd,
      exactCheck e (pyStrip (pyLower q)) = .ok true) :
    ∃ r, find_event_by_name c q fz = .ok (some r) ∧
      exactCheck r (pyStrip (pyLower q)) = .ok true := by
  obtain ⟨r, hr1, hr2⟩ := exactLoop_finds (c.events.map Prod.snd)
    (pyStrip (pyLower q)) hnames hex
  exact ⟨r, by simp [find_event_by_name, hr1], hr2⟩

/-- A store where an exact candidate coexists with fuzzy candidates. -/
def cacheC4w : EventCache :=
  { events := [("k0", { name := some (some "Target Event Special Edition") }),
               ("k2", evTarget)] }

/-- Witness for C4: the exactly-matching record wins over the earlier
record that matches only by containment. -/
theorem findByName_exact_precedence_witness :
    ∃ r, find_event_by_name cacheC4w "  TARGET EVENT " true = .ok (some r) ∧
      exactCheck r (pyStrip (pyLower "  TARGET EVENT ")) = .ok true :=
  findByName_exact_precedence cacheC4w "  TARGET EVENT " true
    (by decide) (by decide)

/-! ### Claim C5 — order of the fuzzy strategies -/

/-- A name agreeing with the query on its first 30 characters only. -/
def fuzzyN1 : String := ⟨List.replicate 30 'a'⟩ ++ "yy"

/-- A name containing the query as a substring. -/
def fuzzyN2 : String := ⟨List.replicate 30 'a'⟩ ++ "xxzz"

/-- The query. -/
def fuzzyQ : String := ⟨List.replicate 30 'a'⟩ ++ "xx"

/-- A store where the earlier candidate matches only by 30-character
prefix and the later candidate matches by containment. -/
def cacheC5 : EventCache :=
  { events := [("k1", { name := some (some fuzzyN1) }),
               ("k2", { name := some (some fuzzyN2) })] }

/-- Counterexample to C5 as stated: the query has no exact match in
`cacheC5`; the later record contains the query as a substring while the
earlier record matches only on the 30-character prefix — yet
`find_event_by_name` returns the earlier, prefix-only record.  The two
fuzzy strategies are not tried store-wide in sequence; both are applied
per candidate during a single scan. -/
theorem findByName_prefix_beats_later_containment :
    find_event_by_name cacheC5 fuzzyQ true
      = .ok (some { name := some (some fuzzyN1) }) ∧
    containHit { name := some (some fuzzyN2) } (pyStrip (pyLower fuzzyQ)) = true ∧
    containHit { name := some (some fuzzyN1) } (pyStrip (pyLower fuzzyQ)) = false := by
  decide

/-- C5 (amended): when no exact match exists and fuzzy matching is
enabled (over a store whose records all carry string names), the
candidates are scanned once in insertion order, each candidate tested by
containment-or-30-character-prefix, and the first candidate passing
either test is returned; an earlier candidate matching only by prefix is
therefore returned over a later candidate matching by containment. -/
theorem findByName_fuzzy_single_scan
    (c : EventCache) (q : String)
    (hnames : ∀ e ∈ c.events.map Prod.snd, dget e.name (some "") ≠ none)
    (hnoexact : ∀ e ∈ c.events.map Prod.snd,
      exactCheck e (pyStrip (pyLower q)) = .ok false) :
    find_event_by_name c q true =
      .ok ((c.events.map Prod.snd).find?
        (fun e => fuzzyHit e (pyStrip (pyLower q)))) := by
  have h1 := exactLoop_none (c.events.map Prod.snd) (pyStrip (pyLower q)) hnoexact
  have h2 := fuzzyLoop_first_hit (c.events.map Prod.snd) (pyStrip (pyLower q)) hnames
  simp [find_event_by_name, h1, h2]

/-- Witness for C5 at `cacheC5`: the scan returns its first fuzzy hit. -/
theorem findByName_fuzzy_single_scan_witness :
    find_event_by_name cacheC5 fuzzyQ true =
      .ok ((cacheC5.events.map Prod.snd).find?
        (fun e => fuzzyHit e (pyStrip (pyLower fuzzyQ)))) :=
  findByName_fuzzy_single_scan cacheC5 fuzzyQ (by decide) (by decide)

/-! ### Claim C6 — TTL-driven refetch avoidance -/

/-- A well-formed Brussels record (French translation present). -/
def rawFete : BrusselsRaw :=
  { translations_fr := some { name := some (some "Fete") },
    date_start := some (some "2025-01-01"), is_free := true }

/-- Counterexample to C6 as stated: the Brussels source has no TTL check
at all — immediately after a successful fetch that cached events, a
second fetch for the same source performs another upstream request
(`fetch_brussels_to_cache` issues `requests.get` unconditionally; the
`last_refresh` / `ttl_seconds` fields of `EventCache` are never read). -/
theorem brussels_refetches_within_window :
    (fetch_brussels_to_cache {} (some [rawFete]) "t0").2.2 = true ∧
    (fetch_brussels_to_cache {} (some [rawFete]) "t0").2.1 ≠ [] ∧
    (fetch_brussels_to_cache (fetch_brussels_to_cache {} (some [rawFete]) "t0").1
      (some [rawFete]) "t0").2.2 = true := by
  decide

/-- C6 (amended): only the EventBrite adapter has the TTL policy.  With
`force_refresh` false, a fetch at a clock value strictly before the
stored expiry of a previously cached non-empty list returns that list
and performs no upstream request; once the TTL has elapsed the entry is
evicted and the source is refetched.  The Brussels adapter performs an
upstream request on every call. -/
theorem eventbrite_ttl_policy :
    (∀ (c : CacheWithTTL) (v : List EBEvent) (ttl t0 now : Nat) (up : List EBEvent),
      v ≠ [] → now < t0 + ttl →
      fetch_events_to_cache (ttlSet c "eventbrite:events:all" v ttl t0) now up false 36000
        = (v, ttlSet c "eventbrite:events:all" v ttl t0, false)) ∧
    (∀ (c : CacheWithTTL) (v : List EBEvent) (ttl t0 now : Nat) (up : List EBEvent),
      t0 + ttl ≤ now →
      (fetch_events_to_cache (ttlSet c "eventbrite:events:all" v ttl t0)
          now up false 36000).2.2 = true ∧
      (fetch_events_to_cache (ttlSet c "eventbrite:events:all" v ttl t0)
          now up false 36000).1 = up) ∧
    (∀ (c : EventCache) (resp : Option (List BrusselsRaw)) (now : String),
      (fetch_brussels_to_cache c resp now).2.2 = true) := by
  refine ⟨?_, ?_, ?_⟩
  · intro c v ttl t0 now up hv hlt
    have h1 : (ttlSet c "eventbrite:events:all" v ttl t0).cache.lookup
        "eventbrite:events:all" = some v := lookup_dictSet_self _ _ _
    have h2 : (ttlSet c "eventbrite:events:all" v ttl t0).expiry.lookup
        "eventbrite:events:all" = some (t0 + ttl) := lookup_dictSet_self _ _ _
    have hemp : v.isEmpty = false := by
      cases v with
      | nil => exact absurd rfl hv
      | cons a l => rfl
    simp [fetch_events_to_cache, ttlGet, h1, h2, hlt, hemp]
  · intro c v ttl t0 now up hge
    have h1 : (ttlSet c "eventbrite:events:all" v ttl t0).cache.lookup
        "eventbrite:events:all" = some v := lookup_dictSet_self _ _ _
    have h2 : (ttlSet c "eventbrite:events:all" v ttl t0).expiry.lookup
        "eventbrite:events:all" = some (t0 + ttl) := lookup_dictSet_self _ _ _
    have hlt : ¬ now < t0 + ttl := Nat.not_lt.mpr hge
    constructor <;> simp [fetch_events_to_cache, ttlGet, h1, h2, hlt]
  · intro c resp now
    cases resp with
    | none => rfl
    | some rs => rfl

/-- Witness for C6 (amended): a fetch one second before expiry is served
from the cache with no upstream request; at the expiry instant the
source is refetched; a Brussels fetch always requests upstream. -/
theorem eventbrite_ttl_policy_witness :
    fetch_events_to_cache (ttlSet {} "eventbrite:events:all" [{}] 36000 100)
        36099 [] false 36000
      = ([{}], ttlSet {} "eventbrite:events:all" [{}] 36000 100, false) ∧
    (fetch_events_to_cache (ttlSet {} "eventbrite:events:all" [{}] 36000 100)
        36100 [] false 36000).2.2 = true ∧
    (fetch_brussels_to_cache {} none "t").2.2 = true :=
  ⟨eventbrite_ttl_policy.1 {} [{}] 36000 100 36099 [] (by decide) (by decide),
   (eventbrite_ttl_policy.2.1 {} [{}] 36000 100 36100 [] (by decide)).1,
   eventbrite_ttl_policy.2.2 {} none "t"⟩

/-! ### Claim C7 — one slot per id in the full-view resolver -/

/-- C7: the resolver emits exactly one slot per parsed id, in input order
(1-indexed); an id absent from the store yields the explicit "not found"
placeholder in its slot rather than being skipped; in particular the
single unknown id `"doesnotexist"` yields exactly one such slot. -/
theorem detailSlots_one_slot_per_id :
    (∀ (c : EventCache) (s : String),
      (detailSlots c (parseIds s)).length = (parseIds s).length) ∧
    (∀ (c : EventCache) (s : String) (i : Nat), i < (parseIds s).length →
      get_event c ((parseIds s).getD i "") = none →
      (detailSlots c (parseIds s)).getD i ""
        = toString (i + 1) ++ ". **Événement non trouvé** (ID: "
            ++ (parseIds s).getD i "" ++ ")") ∧
    detailSlots {} (parseIds "doesnotexist")
      = ["1. **Événement non trouvé** (ID: doesnotexist)"] := by
  refine ⟨?_, ?_, ?_⟩
  · intro c s
    simp [detailSlots]
  · intro c s i hi hnone
    have hlen : (detailSlots c (parseIds s)).length = (parseIds s).length := by
      simp [detailSlots]
    rw [List.getD_eq_getElem _ _ (hlen ▸ hi)]
    rw [List.getD_eq_getElem _ _ hi] at hnone ⊢
    simp only [detailSlots, List.getElem_map, List.getElem_enum]
    rw [detailSlot, hnone]
  · decide

/-- Witness for C7 on a store that contains one event and a query mixing
a known and an unknown id: the unknown id's slot is the placeholder. -/
theorem detailSlots_one_slot_per_id_witness :
    (detailSlots cacheCA1.1 (parseIds "doesnotexist")).length
      = (parseIds "doesnotexist").length ∧
    (detailSlots cacheCA1.1 (parseIds "doesnotexist")).getD 0 ""
      = toString (0 + 1) ++ ". **Événement non trouvé** (ID: "
          ++ (parseIds "doesnotexist").getD 0 "" ++ ")" :=
  ⟨detailSlots_one_slot_per_id.1 cacheCA1.1 "doesnotexist",
   detailSlots_one_slot_per_id.2.1 cacheCA1.1 "doesnotexist" 0
     (by decide) (by decide)⟩

/-! ### Claim C8 — minimal view: line count and per-field bounds -/

/-- An 81-character name. -/
def longName81 : String := ⟨List.replicate 81 'a'⟩

/-- A store of 20 events whose first event has an 81-character name. -/
def store20 : EventCache :=
  { events := (List.range 20).map (fun i =>
      (Nat.repr i,
       { name := some (some (if i = 0 then longName81 else "e")),
         description := some (some "d") })) }

/-- Counterexample to C8 as stated: over a 20-event store with
`limit = 5`, `get_llm_summary` does emit exactly 5 lines, but the name
field is not truncated — a stored 81-character name appears in full,
violating the claimed ≤ 80-character bound (the date field is likewise
not truncated by `get_llm_summary`). -/
theorem llmSummary_name_not_truncated :
    store20.events.length = 20 ∧
    (summaryLines store20 none 5).length = 5 ∧
    ((summaryEmitted none store20.events 5).all
      (fun p => (summaryTriple p.2).1.length ≤ 80)) = false := by
  decide

/-- With no source filter, the summary loop emits the first
`limit` entries. -/
theorem summaryEmitted_none_eq_take (es : List (String × Event)) (r : Nat) :
    summaryEmitted none es r = es.take r := by
  induction es generalizing r with
  | nil => simp [summaryEmitted]
  | cons p rest ih =>
    obtain ⟨k, e⟩ := p
    cases r with
    | zero => simp [summaryEmitted, summarySkip, sourceTruthy]
    | succ n => simp [summaryEmitted, summarySkip, sourceTruthy, ih]

/-- C8 (amended): for every store holding 20 cached events, the minimal
view with `limit = 5` emits exactly 5 lines, and in every emitted line
the short description is at most 100 characters; the name and date
fields are emitted untruncated by `get_llm_summary`. -/
theorem llmSummary_five_lines_desc_bounded
    (c : EventCache) (h20 : c.events.length = 20) :
    (summaryLines c none 5).length = 5 ∧
    ∀ p ∈ summaryEmitted none c.events 5,
      (summaryTriple p.2).2.2.length ≤ 100 := by
  constructor
  · simp [summaryLines, summaryEmitted_none_eq_take, h20]
  · intro p hp
    show (pyTake 100 (pyOrS (dget p.2.description (some "")) "")).length ≤ 100
    exact length_pyTake_le 100 _

/-- Witness for C8 (amended) at the concrete 20-event store. -/
theorem llmSummary_five_lines_desc_bounded_witness :
    (summaryLines store20 none 5).length = 5 ∧
    ∀ p ∈ summaryEmitted none store20.events 5,
      (summaryTriple p.2).2.2.length ≤ 100 :=
  llmSummary_five_lines_desc_bounded store20 (by decide)

/-! ### Claim C9 — ingestion of malformed provider records -/

/-- A Brussels record with a French translation but no name
(`fr.get('name')` is `None`). -/
def rawNoName : BrusselsRaw := { translations_fr := some {} }

/-- Counterexample to C9 as stated: a record missing the required name is
NOT skipped by the Brussels ingestion — it is inserted into the store
(store size 1 after the fetch), carrying a `None` name, under the id
derived from the string `"None"`. -/
theorem brussels_missing_name_inserted :
    (fetch_brussels_to_cache {} (some [rawNoName]) "t0").1.events.length = 1 ∧
    (fetch_brussels_to_cache {} (some [rawNoName]) "t0").2.1.length = 1 ∧
    ((fetch_brussels_to_cache {} (some [rawNoName]) "t0").1.events.map
      (fun p => p.2.name)) = [some none] ∧
    ((fetch_brussels_to_cache {} (some [rawNoName]) "t0").1.events.map
      (fun p => p.1)) = ["eabd119b6078"] := by
  decide

/-- C9 (amended): during ingestion of a Brussels page, records lacking a
French translation are skipped and processing continues with the
remaining records (one output record per fr-carrying input record);
a record that has a French translation but is missing the name is NOT
skipped — it is inserted into the store with a `None` name.  No
malformed record aborts the page. -/
theorem brussels_ingest_skips_only_missing_fr
    (c : EventCache) (page : List BrusselsRaw) (now : String)
    (r : BrusselsRaw) (fr : FrTranslation) (st : EventCache)
    (hfr : r.translations_fr = some fr) :
    ((fetch_brussels_to_cache c (some page) now).2.1.length
      = (page.filter (fun x => x.translations_fr.isSome)).length) ∧
    ((fetch_brussels_to_cache st (some [r]) now).1.events.lookup
        (generate_id (pyFmt (dgetN fr.name)) "brussels")
      = some (injectEvent (brusselsFullEvent r fr)
          (generate_id (pyFmt (dgetN fr.name)) "brussels") "brussels" now)) := by
  constructor
  · show (brusselsIngest c page now).2.length = _
    induction page generalizing c with
    | nil => rfl
    | cons x rest ih =>
      rcases hx : x.translations_fr with _ | fr'
      · simp [brusselsIngest, hx, List.filter_cons, ih]
      · simp [brusselsIngest, hx, List.filter_cons, ih]
  · show (brusselsIngest st [r] now).1.events.lookup _ = _
    simp only [brusselsIngest, hfr]
    show (dictSet st.events _ _).lookup _ = _
    have hname : dget (brusselsFullEvent r fr).name (some "") = dgetN fr.name := rfl
    simp only [add_event, brusselsFullEvent]
    exact lookup_dictSet_self _ _ _

/-- Witness for C9 (amended) at the name-less record `rawNoName`: the
single-record page is ingested, not skipped. -/
theorem brussels_ingest_skips_only_missing_fr_witness :
    ((fetch_brussels_to_cache {} (some [rawNoName]) "t1").2.1.length
      = ([rawNoName].filter (fun x => x.translations_fr.isSome)).length) ∧
    ((fetch_brussels_to_cache {} (some [rawNoName]) "t1").1.events.lookup
        (generate_id (pyFmt (dgetN ({} : FrTranslation).name)) "brussels")
      = some (injectEvent (brusselsFullEvent rawNoName {})
          (generate_id (pyFmt (dgetN ({} : FrTranslation).name)) "brussels")
          "brussels" "t1")) :=
  brussels_ingest_skips_only_missing_fr {} [rawNoName] "t1" rawNoName {} {} rfl

/-! ### Claim C10 — store invariant over add/clear sequences -/

/-- The store operations of the claim. -/
inductive CacheOp where
  | addOp (event : Event) (source now : String)
  | clearOp (source : Option String)
  deriving Repr, DecidableEq

/-- Apply one operation to a store. -/
def applyOp (c : EventCache) : CacheOp → EventCache
  | .addOp e src now => (add_event c e src now).1
  | .clearOp s => clear c s

/-- Run a sequence of operations from the fresh store. -/
def runOps (ops : List CacheOp) : EventCache := ops.foldl applyOp {}

theorem clear_entries_subset (c : EventCache) (s : Option String)
    (p : String × Event) (hp : p ∈ (clear c s).events) : p ∈ c.events := by
  rcases s with _ | s'
  · simp [clear] at hp
  · by_cases h : s' == ""
    · simp [clear, h] at hp
    · rw [clear] at hp
      simp only [h] at hp
      exact List.mem_of_mem_filter hp

theorem foldl_writtenBy (allOps : List CacheOp) :
    ∀ (ops : List CacheOp) (c : EventCache),
    (∀ o ∈ ops, o ∈ allOps) →
    (∀ p ∈ c.events, ∃ e src now, CacheOp.addOp e src now ∈ allOps ∧
      p.1 = generate_id (pyFmt (dget e.name (some ""))) src ∧
      p.2 = injectEvent e p.1 src now) →
    ∀ p ∈ (ops.foldl applyOp c).events,
      ∃ e src now, CacheOp.addOp e src now ∈ allOps ∧
        p.1 = generate_id (pyFmt (dget e.name (some ""))) src ∧
        p.2 = injectEvent e p.1 src now := by
  intro ops
  induction ops with
  | nil => intro c _ hc p hp; exact hc p hp
  | cons o rest ih =>
    intro c hops hc p hp
    refine ih (applyOp c o) (fun x hx => hops x (by simp [hx])) ?_ p hp
    intro q hq
    cases o with
    | addOp e src now =>
      rcases mem_dictSet _ _ _ q hq with h | h
      · refine ⟨e, src, now, hops _ (by simp), ?_, ?_⟩
        · rw [h]
        · rw [h]
      · exact hc q h
    | clearOp s => exact hc q (clear_entries_subset c s q hq)

/-- C10: after any sequence of `add_event` / `clear` operations, every
entry `(k, v)` of the event map was written by some `add_event` call:
`k` is the id computed from that call's event name and source, `v` is
that call's record with `_id`, `_source`, `_cached_at` injected (so
`v._id = k` and `v._source` is the writing call's source, overriding any
caller-supplied `_id`/`_source`); and `get_events_by_source S` returns
exactly the stored records whose injected `_source` equals `S`. -/
theorem store_invariant_id_source (ops : List CacheOp) :
    (∀ p ∈ (runOps ops).events, ∃ e src now,
      CacheOp.addOp e src now ∈ ops ∧
      p.1 = generate_id (pyFmt (dget e.name (some ""))) src ∧
      p.2 = injectEvent e p.1 src now ∧
      p.2.eid = some (some p.1) ∧
      p.2.esource = some (some src)) ∧
    (∀ (S : String) (r : Event),
      r ∈ get_events_by_source (runOps ops) S ↔
        (∃ k, (k, r) ∈ (runOps ops).events) ∧ r.esource = some (some S)) := by
  constructor
  · intro p hp
    obtain ⟨e, src, now, ho, h1, h2⟩ :=
      foldl_writtenBy ops ops {} (fun o h => h) (by simp) p hp
    exact ⟨e, src, now, ho, h1, h2, by rw [h2]; rfl, by rw [h2]; rfl⟩
  · intro S r
    constructor
    · intro hr
      rw [get_events_by_source, List.mem_filter] at hr
      obtain ⟨hmem, hpred⟩ := hr
      obtain ⟨p, hp, hpr⟩ := List.mem_map.mp hmem
      have hp' : (p.1, r) ∈ (runOps ops).events := by
        have hpe : p = (p.1, r) := by
          rw [← hpr]
        rw [← hpe]
        exact hp
      refine ⟨⟨p.1, hp'⟩, ?_⟩
      · rcases hs : r.esource with _ | v
        · rw [dgetN, hs] at hpred
          simp at hpred
        · rw [dgetN, hs] at hpred
          simp only [Option.getD_some, beq_iff_eq] at hpred
          rw [hpred]
    · intro ⟨⟨k, hk⟩, hs⟩
      rw [get_events_by_source, List.mem_filter]
      refine ⟨List.mem_map.mpr ⟨(k, r), hk, rfl⟩, ?_⟩
      rw [dgetN, hs]
      simp

/-- The caller-supplied record tries to smuggle its own `_id` and
`_source`. -/
def spoofEvent : Event :=
  { name := some (some "Concert A"), eid := some (some "fake"),
    esource := some (some "spoof") }

/-- One add of the spoofed record under source `"brussels"`. -/
def spoofOps : List CacheOp := [CacheOp.addOp spoofEvent "brussels" "t0"]

/-- The id the store derives for the spoofed record. -/
def spoofId : String := generate_id (pyFmt (dget spoofEvent.name (some ""))) "brussels"

/-- The entry actually stored for the spoofed record. -/
def spoofPair : String × Event :=
  (spoofId, injectEvent spoofEvent spoofId "brussels" "t0")

/-- Witness for C10: the single stored entry of `runOps spoofOps` carries
the derived id and `_source = "brussels"`, the caller's `"fake"` /
`"spoof"` values having been overridden. -/
theorem store_invariant_id_source_witness :
    ∃ e src now, CacheOp.addOp e src now ∈ spoofOps ∧
      spoofPair.1 = generate_id (pyFmt (dget e.name (some ""))) src ∧
      spoofPair.2 = injectEvent e spoofPair.1 src now ∧
      spoofPair.2.eid = some (some spoofPair.1) ∧
      spoofPair.2.esource = some (some src) :=
  (store_invariant_id_source spoofOps).1 spoofPair (by decide)
